import Mathlib

/-!
Verification of the schema-migration and seed subsystem of the
`golang-user-api` repository (`pkg/db/seed.go`, `pkg/db/postgres.go`,
`cmd/main.go`, `cmd/migrate/main.go`).

The Go code is shallowly embedded: the shared `pgxpool` handle becomes an
`Option DBState`, directory listing / file reading / statement execution
become explicit fields of a `World` (resp. `SeedWorld`) record describing
the environment's responses, and each `fmt.Errorf` branch becomes a
constructor of a structured error type carrying the same data (in
particular the failing filename).  Go's `sort.Strings` (byte-wise
lexicographic order, ASCII filenames) is embedded as an insertion sort over
a structurally recursive character-list comparison.
-/

namespace UserApi

/-- Byte-wise (character-wise) lexicographic `≤` on character lists, the
order `sort.Strings` uses on ASCII strings. -/
def charListLe : List Char → List Char → Bool
  | [], _ => true
  | _ :: _, [] => false
  | a :: as, b :: bs =>
    if a < b then true
    else if b < a then false
    else charListLe as bs

/-- Lexicographic `≤` on strings, as compared by Go's `sort.Strings`. -/
def strLe (a b : String) : Bool := charListLe a.data b.data

/-- Suffix test on character lists, as in Go's `strings.HasSuffix`. -/
def listEndsWith (l suf : List Char) : Bool :=
  decide (l.drop (l.length - suf.length) = suf)

/-- Embedding of `strings.HasSuffix(name, ".sql")`. -/
def hasSqlSuffix (s : String) : Bool := listEndsWith s.data ".sql".data

/-- Insert a string into an already sorted list (helper for `sortStrings`). -/
def insertSorted (s : String) : List String → List String
  | [] => [s]
  | t :: ts => if strLe s t then s :: t :: ts else t :: insertSorted s ts

/-- Embedding of `sort.Strings`: produces the `strLe`-sorted permutation of
its input (insertion sort; `sort.Strings` produces the same list because a
sorted permutation is unique for a total antisymmetric order). -/
def sortStrings : List String → List String
  | [] => []
  | s :: ss => insertSorted s (sortStrings ss)

/-- One entry returned by `os.ReadDir`: a name plus the `IsDir` flag. -/
structure DirEntry where
  name : String
  isDir : Bool
deriving DecidableEq, Repr

/-- Observable database state: whether the `migrations` tracker table
exists, its rows (`filename` column, in insertion order), the log of
migration statements executed so far (by filename, in execution order) and
the log of executed seed files. -/
structure DBState where
  trackerExists : Bool
  tracker : List String
  execLog : List String
  seedLog : List String
deriving DecidableEq, Repr

/-- Structured form of the error values `RunMigrations` builds with
`fmt.Errorf`; constructors that embed a filename correspond to the format
strings that interpolate the filename. -/
inductive MigError
  | dbNotInitialized
  | createTableFailed
  | readDirFailed
  | queryFailed
  | readFileFailed (filename : String)
  | execFailed (filename : String)
  | recordFailed (filename : String)
deriving DecidableEq, Repr

/-- The environment a `RunMigrations` call runs against: the result of
listing the `migrations` directory (`none` = unreadable), the content of
each file (`none` = unreadable), and whether each database operation
(executing given statement text, creating the tracker table, querying it,
inserting a given applied-record) succeeds. -/
structure World where
  dirListing : Option (List DirEntry)
  fileContents : String → Option String
  execOk : String → Bool
  createTableOk : Bool
  queryOk : Bool
  insertOk : String → Bool

/-- Embedding of the filter-then-sort step of `RunMigrations` and
`SeedDatabase`: keep non-directory entries whose name ends in `.sql`, then
`sort.Strings` the names. -/
def sqlFiles (files : List DirEntry) : List String :=
  sortStrings ((files.filter fun f => !f.isDir && hasSqlSuffix f.name).map DirEntry.name)

/-- Embedding of the `for _, filename := range sqlFiles` loop of
`RunMigrations`: skip names in the snapshot `snap` (the map built before
the loop — it is not updated inside the loop), otherwise read the file,
execute its content, and record the applied-record; abort with the
corresponding error on the first failure. -/
def execPending (w : World) (snap : List String) :
    List String → DBState → DBState × Except MigError Unit
  | [], st => (st, Except.ok ())
  | f :: rest, st =>
    if f ∈ snap then
      execPending w snap rest st
    else
      match w.fileContents f with
      | none => (st, Except.error (MigError.readFileFailed f))
      | some content =>
        if w.execOk content then
          let st1 : DBState := { st with execLog := st.execLog ++ [f] }
          if w.insertOk f then
            execPending w snap rest { st1 with tracker := st1.tracker ++ [f] }
          else (st1, Except.error (MigError.recordFailed f))
        else (st, Except.error (MigError.execFailed f))

/-- Embedding of `db.RunMigrations` (`pkg/db/seed.go`): nil-pool guard,
`CREATE TABLE IF NOT EXISTS migrations`, `os.ReadDir("migrations")`,
filter/sort, snapshot query of applied filenames, then the pending loop. -/
def RunMigrations (db : Option DBState) (w : World) :
    Option DBState × Except MigError Unit :=
  match db with
  | none => (none, Except.error MigError.dbNotInitialized)
  | some st =>
    if w.createTableOk then
      let st0 : DBState := { st with trackerExists := true }
      match w.dirListing with
      | none => (some st0, Except.error MigError.readDirFailed)
      | some files =>
        if w.queryOk then
          let p := execPending w st0.tracker (sqlFiles files) st0
          (some p.1, p.2)
        else (some st0, Except.error MigError.queryFailed)
    else (some st, Except.error MigError.createTableFailed)

/-- Structured form of the error values `SeedDatabase` builds. -/
inductive SeedError
  | dbNotInitialized
  | readDirFailed
  | readFileFailed (filename : String)
  | execFailed (filename : String)
deriving DecidableEq, Repr

/-- The environment a `SeedDatabase` call runs against (listing of the
`seeds` directory, file contents, statement-execution outcomes). -/
structure SeedWorld where
  dirListing : Option (List DirEntry)
  fileContents : String → Option String
  execOk : String → Bool

/-- Embedding of the `for _, filename := range sqlFiles` loop of
`SeedDatabase`: read and execute each seed file, aborting on the first
failure; no tracker is consulted or updated. -/
def seedLoop (sw : SeedWorld) :
    List String → DBState → DBState × Except SeedError Unit
  | [], st => (st, Except.ok ())
  | f :: rest, st =>
    match sw.fileContents f with
    | none => (st, Except.error (SeedError.readFileFailed f))
    | some content =>
      if sw.execOk content then
        seedLoop sw rest { st with seedLog := st.seedLog ++ [f] }
      else (st, Except.error (SeedError.execFailed f))

/-- Embedding of `db.SeedDatabase` (`pkg/db/seed.go`): nil-pool guard,
`os.ReadDir("seeds")`, filter/sort, then the seed loop. -/
def SeedDatabase (db : Option DBState) (sw : SeedWorld) :
    Option DBState × Except SeedError Unit :=
  match db with
  | none => (none, Except.error SeedError.dbNotInitialized)
  | some st =>
    match sw.dirListing with
    | none => (some st, Except.error SeedError.readDirFailed)
    | some files =>
      let sqlNames :=
        sortStrings ((files.filter fun f => !f.isDir && hasSqlSuffix f.name).map DirEntry.name)
      let p := seedLoop sw sqlNames st
      (some p.1, p.2)

/-- The two ways `pgxpool.New` can fail inside the 10-second context of
`InitPostgres`: a malformed DSN, or the timeout elapsing before the
database accepts the connection. -/
inductive ConnFailure
  | malformedDsn
  | timeout
deriving DecidableEq, Repr

/-- Structured form of the error values `InitPostgres` builds. -/
inductive InitError
  | envNotSet
  | connectFailed (f : ConnFailure)
deriving DecidableEq, Repr

/-- Embedding of `db.InitPostgres` (`pkg/db/postgres.go`).  `dsn` is the
value of `os.Getenv("DATABASE_URL")` (`""` when unset); `connect` is the
outcome of `pgxpool.New` against that DSN (the database's current state on
success).  Returns the new value of the shared pool handle `DB`, the
function's result, and whether a connection was attempted at all. -/
def InitPostgres (dsn : String) (connect : Except ConnFailure DBState) :
    Option DBState × Except InitError Unit × Bool :=
  if dsn = "" then (none, Except.error InitError.envNotSet, false)
  else
    match connect with
    | Except.error f => (none, Except.error (InitError.connectFailed f), true)
    | Except.ok st => (some st, Except.ok (), true)

/-- Embedding of the `AUTO_MIGRATE` check in `cmd/main.go`:
`strings.ToLower` (character-wise lowercasing) then comparison with
`"true"`, `"1"`, `"yes"`. -/
def autoMigrateEnabled (v : String) : Bool :=
  let s := String.mk (v.data.map Char.toLower)
  s = "true" || s = "1" || s = "yes"

/-- Reason `cmd/main.go` calls `log.Fatalf` (terminating the process). -/
inductive FatalReason
  | initFailed (e : InitError)
  | migrationFailed (e : MigError)
deriving DecidableEq, Repr

/-- Outcome of the startup sequence of `cmd/main.go`: either the process
terminates via `log.Fatalf`, or it proceeds to serve, carrying the final
database state and the seed error logged as a warning, if any. -/
inductive StartupResult
  | fatal (r : FatalReason)
  | started (db : Option DBState) (seedWarning : Option SeedError)
deriving DecidableEq, Repr

/-- Embedding of the startup sequence of `cmd/main.go`: `InitPostgres`
(failure is `log.Fatalf`), then `RunMigrations` if `AUTO_MIGRATE` is
enabled (failure is `log.Fatalf`), then `SeedDatabase` (failure is only a
`log.Printf` warning and startup proceeds). -/
def mainStartup (dsn : String) (connect : Except ConnFailure DBState)
    (autoMigrateEnv : String) (w : World) (sw : SeedWorld) : StartupResult :=
  match InitPostgres dsn connect with
  | (_, Except.error e, _) => StartupResult.fatal (FatalReason.initFailed e)
  | (db0, Except.ok _, _) =>
    let afterMig : Option DBState ⊕ MigError :=
      if autoMigrateEnabled autoMigrateEnv then
        match RunMigrations db0 w with
        | (_, Except.error e) => Sum.inr e
        | (db1, Except.ok _) => Sum.inl db1
      else Sum.inl db0
    match afterMig with
    | Sum.inr e => StartupResult.fatal (FatalReason.migrationFailed e)
    | Sum.inl db1 =>
      match SeedDatabase db1 sw with
      | (db2, Except.error e) => StartupResult.started db2 (some e)
      | (db2, Except.ok _) => StartupResult.started db2 none

/-- Outcome of `runMigrationsUp` in `cmd/migrate/main.go`: cancelled at the
confirmation prompt, terminated by `log.Fatalf`, or completed. -/
inductive UpOutcome
  | cancelled
  | fatal (e : MigError)
  | success
deriving DecidableEq, Repr

/-- Embedding of `runMigrationsUp` (`cmd/migrate/main.go`).  In force mode
the operator's `response` is read; anything but `"y"`/`"Y"` cancels the run
before any database work.  Otherwise (confirmation granted, or no force
flag) the ordinary `db.RunMigrations` is called — the source explicitly
notes it uses the regular function in force mode. -/
def runMigrationsUp (force : Bool) (response : String) (db : Option DBState)
    (w : World) : Option DBState × UpOutcome :=
  if force && !(response = "y" || response = "Y") then (db, UpOutcome.cancelled)
  else
    match RunMigrations db w with
    | (db1, Except.error e) => (db1, UpOutcome.fatal e)
    | (db1, Except.ok _) => (db1, UpOutcome.success)

/-- The lines `runMigrationsDown` (`cmd/migrate/main.go`) prints. -/
def downMessages : List String :=
  ["⚠️  Rollback functionality not implemented yet.",
   "This would rollback the last migration.",
   "For now, you can manually rollback by:",
   "1. Connecting to your database",
   "2. Running the reverse SQL commands",
   "3. Removing the entry from the migrations table"]

/-- Embedding of `runMigrationsDown` (`cmd/migrate/main.go`): it only
prints the not-implemented notice; the database handle and state are
untouched. -/
def runMigrationsDown (db : Option DBState) : Option DBState × List String :=
  (db, downMessages)

/-! ### Order properties of the embedded string comparison -/

lemma charListLe_total (a : List Char) : ∀ b, charListLe a b = true ∨ charListLe b a = true := by
  induction a with
  | nil => intro b; left; rfl
  | cons x xs ih =>
    intro b
    cases b with
    | nil => right; rfl
    | cons y ys =>
      by_cases hxy : x < y
      · left; simp [charListLe, hxy]
      · by_cases hyx : y < x
        · right; simp [charListLe, hyx]
        · have hxyeq : x = y := le_antisymm (not_lt.mp hyx) (not_lt.mp hxy)
          subst hxyeq
          rcases ih ys with h | h
          · left; simpa [charListLe, lt_irrefl] using h
          · right; simpa [charListLe, lt_irrefl] using h

lemma charListLe_trans (a : List Char) :
    ∀ b c, charListLe a b = true → charListLe b c = true → charListLe a c = true := by
  induction a with
  | nil => intro b c _ _; rfl
  | cons x xs ih =>
    intro b c hab hbc
    cases b with
    | nil => simp [charListLe] at hab
    | cons y ys =>
      cases c with
      | nil => simp [charListLe] at hbc
      | cons z zs =>
        by_cases hxy : x < y
        · by_cases hyz : y < z
          · simp [charListLe, lt_trans hxy hyz]
          · by_cases hzy : z < y
            · simp [charListLe, hyz, hzy] at hbc
            · have : y = z := le_antisymm (not_lt.mp hzy) (not_lt.mp hyz)
              subst this
              simp [charListLe, hxy]
        · by_cases hyx : y < x
          · simp [charListLe, hxy, hyx] at hab
          · have : x = y := le_antisymm (not_lt.mp hyx) (not_lt.mp hxy)
            subst this
            simp only [charListLe, if_neg (lt_irrefl x)] at hab
            by_cases hyz : x < z
            · simp [charListLe, hyz]
            · by_cases hzy : z < x
              · simp [charListLe, hyz, hzy] at hbc
              · have : x = z := le_antisymm (not_lt.mp hzy) (not_lt.mp hyz)
                subst this
                simp only [charListLe, if_neg (lt_irrefl x)] at hbc ⊢
                exact ih ys zs hab hbc

lemma charListLe_antisymm (a : List Char) :
    ∀ b, charListLe a b = true → charListLe b a = true → a = b := by
  induction a with
  | nil =>
    intro b _ hba
    cases b with
    | nil => rfl
    | cons y ys => simp [charListLe] at hba
  | cons x xs ih =>
    intro b hab hba
    cases b with
    | nil => simp [charListLe] at hab
    | cons y ys =>
      by_cases hxy : x < y
      · simp [charListLe, hxy, lt_asymm hxy] at hba
      · by_cases hyx : y < x
        · simp [charListLe, hxy, hyx] at hab
        · have : x = y := le_antisymm (not_lt.mp hyx) (not_lt.mp hxy)
          subst this
          simp only [charListLe, if_neg (lt_irrefl x)] at hab hba
          rw [ih ys hab hba]

/-- The `≤` relation of the embedded `sort.Strings` comparison, as a
proposition. -/
def StrLeP (a b : String) : Prop := strLe a b = true

instance : IsTotal String StrLeP :=
  ⟨fun a b => charListLe_total a.data b.data⟩

instance : IsTrans String StrLeP :=
  ⟨fun a b c => charListLe_trans a.data b.data c.data⟩

instance : IsAntisymm String StrLeP :=
  ⟨fun a b hab hba => congrArg String.mk (charListLe_antisymm a.data b.data hab hba)⟩

lemma insertSorted_perm (s : String) (l : List String) :
    (insertSorted s l).Perm (s :: l) := by
  induction l with
  | nil => simp [insertSorted]
  | cons t ts ih =>
    by_cases h : strLe s t
    · simp [insertSorted, h]
    · simp only [insertSorted, if_neg h]
      exact (ih.cons t).trans (List.Perm.swap s t ts)

lemma insertSorted_pairwise (s : String) (l : List String)
    (hl : l.Pairwise StrLeP) : (insertSorted s l).Pairwise StrLeP := by
  induction l with
  | nil => simp [insertSorted, List.pairwise_singleton]
  | cons t ts ih =>
    rcases List.pairwise_cons.mp hl with ⟨ht, hts⟩
    by_cases h : strLe s t
    · rw [show insertSorted s (t :: ts) = s :: t :: ts by simp [insertSorted, h]]
      refine List.pairwise_cons.mpr ⟨?_, hl⟩
      intro b hb
      rcases List.mem_cons.mp hb with hb | hb
      · subst hb; exact h
      · exact charListLe_trans s.data t.data b.data h (ht b hb)
    · rw [show insertSorted s (t :: ts) = t :: insertSorted s ts by
        simp [insertSorted, h]]
      refine List.pairwise_cons.mpr ⟨?_, ih hts⟩
      intro b hb
      have hb' : b ∈ s :: ts := (insertSorted_perm s ts).mem_iff.mp hb
      rcases List.mem_cons.mp hb' with hb' | hb'
      · subst hb'
        rcases charListLe_total t.data b.data with h' | h'
        · exact h'
        · exact absurd h' h
      · exact ht b hb'

lemma sortStrings_perm (l : List String) : (sortStrings l).Perm l := by
  induction l with
  | nil => simp [sortStrings]
  | cons s ss ih =>
    exact (insertSorted_perm s (sortStrings ss)).trans (ih.cons s)

lemma sortStrings_pairwise (l : List String) : (sortStrings l).Pairwise StrLeP := by
  induction l with
  | nil => simp [sortStrings]
  | cons s ss ih => exact insertSorted_pairwise s (sortStrings ss) ih

lemma sortStrings_eq_of_perm {l₁ l₂ : List String} (h : l₁.Perm l₂) :
    sortStrings l₁ = sortStrings l₂ :=
  List.eq_of_perm_of_sorted
    ((sortStrings_perm l₁).trans (h.trans (sortStrings_perm l₂).symm))
    (sortStrings_pairwise l₁) (sortStrings_pairwise l₂)

lemma sqlFiles_eq_of_perm {l₁ l₂ : List DirEntry} (h : l₁.Perm l₂) :
    sqlFiles l₁ = sqlFiles l₂ :=
  sortStrings_eq_of_perm ((h.filter _).map _)

lemma sqlFiles_nodup {l : List DirEntry} (h : (l.map DirEntry.name).Nodup) :
    (sqlFiles l).Nodup := by
  have hsub : ((l.filter fun f => !f.isDir && hasSqlSuffix f.name).map DirEntry.name).Sublist
      (l.map DirEntry.name) := (List.filter_sublist l).map _
  exact ((sortStrings_perm _).nodup_iff).mpr (h.sublist hsub)

lemma sqlFiles_strict_sorted {l : List DirEntry} (h : (l.map DirEntry.name).Nodup) :
    (sqlFiles l).Pairwise (fun a b => strLe a b = true ∧ a ≠ b) :=
  (sortStrings_pairwise _).and (sqlFiles_nodup h)

/-! ### Invariants of the pending-migration loop -/

lemma execPending_delta (w : World) (snap : List String) :
    ∀ (files : List String) (st : DBState), ∃ dt de,
      ((execPending w snap files st).1).tracker = st.tracker ++ dt ∧
      ((execPending w snap files st).1).execLog = st.execLog ++ de ∧
      ((execPending w snap files st).1).trackerExists = st.trackerExists ∧
      ((execPending w snap files st).1).seedLog = st.seedLog ∧
      dt.Sublist de ∧ de.Sublist files := by
  intro files
  induction files with
  | nil =>
    intro st
    exact ⟨[], [], by simp [execPending]⟩
  | cons f rest ih =>
    intro st
    by_cases hmem : f ∈ snap
    · obtain ⟨dt, de, h1, h2, h3, h4, h5, h6⟩ := ih st
      exact ⟨dt, de, by simpa [execPending, hmem] using h1,
        by simpa [execPending, hmem] using h2,
        by simpa [execPending, hmem] using h3,
        by simpa [execPending, hmem] using h4, h5, h6.cons f⟩
    · cases hfc : w.fileContents f with
      | none =>
        exact ⟨[], [], by simp [execPending, hmem, hfc]⟩
      | some content =>
        cases hex : w.execOk content with
        | false =>
          exact ⟨[], [], by simp [execPending, hmem, hfc, hex]⟩
        | true =>
          cases hins : w.insertOk f with
          | false =>
            refine ⟨[], [f], ?_⟩
            simp [execPending, hmem, hfc, hex, hins, List.nil_sublist,
              List.Sublist.cons₂ f (List.nil_sublist rest)]
          | true =>
            obtain ⟨dt, de, h1, h2, h3, h4, h5, h6⟩ :=
              ih { st with tracker := st.tracker ++ [f], execLog := st.execLog ++ [f] }
            refine ⟨f :: dt, f :: de, ?_, ?_, ?_, ?_, h5.cons₂ f, h6.cons₂ f⟩
            · simpa [execPending, hmem, hfc, hex, hins] using h1
            · simpa [execPending, hmem, hfc, hex, hins] using h2
            · simpa [execPending, hmem, hfc, hex, hins] using h3
            · simpa [execPending, hmem, hfc, hex, hins] using h4

lemma execPending_exec_recorded (w : World) (snap : List String) :
    ∀ (files : List String) (st : DBState) (g : String),
      g ∈ ((execPending w snap files st).1).execLog →
      g ∈ st.execLog ∨ g ∈ ((execPending w snap files st).1).tracker ∨
        (execPending w snap files st).2 = Except.error (MigError.recordFailed g) := by
  intro files
  induction files with
  | nil =>
    intro st g hg
    left
    simpa [execPending] using hg
  | cons f rest ih =>
    intro st g hg
    by_cases hmem : f ∈ snap
    · simpa [execPending, hmem] using ih st g (by simpa [execPending, hmem] using hg)
    · cases hfc : w.fileContents f with
      | none =>
        left; simpa [execPending, hmem, hfc] using hg
      | some content =>
        cases hex : w.execOk content with
        | false =>
          left; simpa [execPending, hmem, hfc, hex] using hg
        | true =>
          cases hins : w.insertOk f with
          | false =>
            have hg' : g ∈ st.execLog ++ [f] := by
              simpa [execPending, hmem, hfc, hex, hins] using hg
            rcases List.mem_append.mp hg' with h | h
            · exact Or.inl h
            · right; right
              simp [execPending, hmem, hfc, hex, hins, List.mem_singleton.mp h]
          | true =>
            set st2 : DBState :=
              { st with tracker := st.tracker ++ [f], execLog := st.execLog ++ [f] } with hst2
            have hg' : g ∈ ((execPending w snap rest st2).1).execLog := by
              simpa [execPending, hmem, hfc, hex, hins, hst2] using hg
            have hres :
                (execPending w snap ((f :: rest) : List String) st).1 =
                  (execPending w snap rest st2).1 := by
              simp [execPending, hmem, hfc, hex, hins, hst2]
            have hres2 :
                (execPending w snap ((f :: rest) : List String) st).2 =
                  (execPending w snap rest st2).2 := by
              simp [execPending, hmem, hfc, hex, hins, hst2]
            rcases ih st2 g hg' with h | h | h
            · have h' : g ∈ st.execLog ∨ g = f := by simpa [hst2] using h
              rcases h' with h' | h'
              · exact Or.inl h'
              · right; left
                rw [hres]
                obtain ⟨dt, de, h1, _⟩ := execPending_delta w snap rest st2
                rw [h1]
                subst h'
                exact List.mem_append.mpr (Or.inl (by simp [hst2]))
            · right; left; rw [hres]; exact h
            · right; right; rw [hres2]; exact h

lemma execPending_ok_done (w : World) (snap : List String) :
    ∀ (files : List String) (st st' : DBState),
      execPending w snap files st = (st', Except.ok ()) →
      ∀ f ∈ files, f ∈ snap ∨ f ∈ st'.tracker := by
  intro files
  induction files with
  | nil => intro st st' _ f hf; cases hf
  | cons f rest ih =>
    intro st st' hrun g hg
    by_cases hmem : f ∈ snap
    · have hrun' : execPending w snap rest st = (st', Except.ok ()) := by
        simpa [execPending, hmem] using hrun
      rcases List.mem_cons.mp hg with hg | hg
      · subst hg; exact Or.inl hmem
      · exact ih st st' hrun' g hg
    · cases hfc : w.fileContents f with
      | none => simp [execPending, hmem, hfc] at hrun
      | some content =>
        cases hex : w.execOk content with
        | false => simp [execPending, hmem, hfc, hex] at hrun
        | true =>
          cases hins : w.insertOk f with
          | false => simp [execPending, hmem, hfc, hex, hins] at hrun
          | true =>
            set st2 : DBState :=
              { st with tracker := st.tracker ++ [f], execLog := st.execLog ++ [f] } with hst2
            have hrun' : execPending w snap rest st2 = (st', Except.ok ()) := by
              simpa [execPending, hmem, hfc, hex, hins, hst2] using hrun
            rcases List.mem_cons.mp hg with hg | hg
            · subst hg
              right
              obtain ⟨dt, de, h1, _⟩ := execPending_delta w snap rest st2
              have hst' : (execPending w snap rest st2).1 = st' := congrArg Prod.fst hrun'
              rw [← hst', h1]
              exact List.mem_append.mpr (Or.inl (by simp [hst2]))
            · exact ih st2 st' hrun' g hg

lemma execPending_skip_all (w : World) (snap : List String) :
    ∀ (files : List String) (st : DBState), (∀ f ∈ files, f ∈ snap) →
      execPending w snap files st = (st, Except.ok ()) := by
  intro files
  induction files with
  | nil => intro st _; rfl
  | cons f rest ih =>
    intro st hall
    have hmem : f ∈ snap := hall f (List.mem_cons_self f rest)
    have : execPending w snap ((f :: rest) : List String) st =
        execPending w snap rest st := by simp [execPending, hmem]
    rw [this]
    exact ih st fun g hg => hall g (List.mem_cons_of_mem f hg)

lemma execPending_allOk (w : World) (snap : List String)
    (hf : ∀ f, ∃ c, w.fileContents f = some c ∧ w.execOk c = true)
    (hi : ∀ f, w.insertOk f = true) :
    ∀ (files : List String) (st : DBState),
      (execPending w snap files st).2 = Except.ok () := by
  intro files
  induction files with
  | nil => intro st; rfl
  | cons f rest ih =>
    intro st
    by_cases hmem : f ∈ snap
    · simpa [execPending, hmem] using ih st
    · obtain ⟨c, hc, hex⟩ := hf f
      simpa [execPending, hmem, hc, hex, hi f] using
        ih { st with tracker := st.tracker ++ [f], execLog := st.execLog ++ [f] }

lemma execPending_congr {w₁ w₂ : World} (hfc : w₁.fileContents = w₂.fileContents)
    (hex : w₁.execOk = w₂.execOk) (hin : w₁.insertOk = w₂.insertOk)
    (snap : List String) :
    ∀ (files : List String) (st : DBState),
      execPending w₁ snap files st = execPending w₂ snap files st := by
  intro files
  induction files with
  | nil => intro st; rfl
  | cons f rest ih =>
    intro st
    by_cases hmem : f ∈ snap
    · simp [execPending, hmem, ih st]
    · simp only [execPending, if_neg hmem, ← hfc, ← hex, ← hin]
      cases hc : w₁.fileContents f with
      | none => rfl
      | some content =>
        by_cases he : w₁.execOk content = true
        · by_cases hi : w₁.insertOk f = true
          · simp [he, hi, ih]
          · simp [he, hi]
        · simp [he]

lemma DBState.set_trackerExists_self {st : DBState} (h : st.trackerExists = true) :
    { st with trackerExists := true } = st := by
  cases st
  simp_all

instance {ε α : Type} [DecidableEq ε] [DecidableEq α] : DecidableEq (Except ε α) := fun a b =>
  match a, b with
  | Except.error e, Except.error e' =>
    if h : e = e' then isTrue (by rw [h])
    else isFalse (by intro hh; cases hh; exact h rfl)
  | Except.error _, Except.ok _ => isFalse (by intro hh; cases hh)
  | Except.ok _, Except.error _ => isFalse (by intro hh; cases hh)
  | Except.ok v, Except.ok v' =>
    if h : v = v' then isTrue (by rw [h])
    else isFalse (by intro hh; cases hh; exact h rfl)

/-! ### Concrete demonstration environments (used by the witnesses) -/

/-- A migration environment with two change-set files, listed out of
order, in which every database operation succeeds. -/
def wAll : World :=
  { dirListing := some [⟨"002_b.sql", false⟩, ⟨"001_a.sql", false⟩]
    fileContents := fun f =>
      if f = "001_a.sql" then some "SQL A"
      else if f = "002_b.sql" then some "SQL B"
      else some "SQL OTHER"
    execOk := fun _ => true
    createTableOk := true
    queryOk := true
    insertOk := fun _ => true }

/-- A fresh database: no tracker table, nothing applied or executed. -/
def stFresh : DBState := ⟨false, [], [], []⟩

/-- The database state after a successful run of `wAll` from `stFresh`. -/
def stApplied : DBState := ⟨true, ["001_a.sql", "002_b.sql"], ["001_a.sql", "002_b.sql"], []⟩

/-- Like `wAll` but every applied-record insertion fails. -/
def wRecordFail : World := { wAll with insertOk := fun _ => false }

/-- Three change-set files of which the second one's statement text is
invalid (its execution fails). -/
def wFailB : World :=
  { dirListing := some [⟨"001_a.sql", false⟩, ⟨"002_b.sql", false⟩, ⟨"003_c.sql", false⟩]
    fileContents := fun f =>
      if f = "001_a.sql" then some "SQL A"
      else if f = "002_b.sql" then some "BROKEN SQL"
      else if f = "003_c.sql" then some "SQL C"
      else none
    execOk := fun s => !(s = "BROKEN SQL")
    createTableOk := true
    queryOk := true
    insertOk := fun _ => true }

/-- A seed environment with one seed file whose execution fails. -/
def swFail : SeedWorld :=
  { dirListing := some [⟨"users.sql", false⟩]
    fileContents := fun f => if f = "users.sql" then some "INSERT USERS" else none
    execOk := fun _ => false }

/-- Both change-sets of `wAll` already recorded in the tracker, nothing
executed in this process yet. -/
def forceDB : DBState := ⟨true, ["001_a.sql", "002_b.sql"], [], []⟩

/-! ### Claim theorems -/

/-- C10: calling `RunMigrations` or `SeedDatabase` while the shared pool
handle is nil returns the "database not initialized" error immediately, in
every environment (so no directory listing, file read or database
operation influences the outcome) and with all state unchanged. -/
theorem c10_uninitialized_guard :
    ∀ (w : World) (sw : SeedWorld),
      RunMigrations none w = (none, Except.error MigError.dbNotInitialized) ∧
      SeedDatabase none sw = (none, Except.error SeedError.dbNotInitialized) :=
  fun _ _ => ⟨rfl, rfl⟩

/-- C8: the rollback (`down`) operation leaves the database handle and
state untouched, performs no database operation, and always prints the
"not implemented" notice — it never silently succeeds. -/
theorem c8_rollback_stub :
    ∀ db : Option DBState,
      runMigrationsDown db = (db, downMessages) ∧
      "⚠️  Rollback functionality not implemented yet." ∈ downMessages :=
  fun _ => ⟨rfl, List.mem_cons_self _ _⟩

/-- C9: `InitPostgres` fails with no connection attempt and the shared
pool left unset when the environment-supplied DSN is empty, and fails
whenever the connection step reports a malformed DSN or the bounded
connection-establishment timeout elapsing. -/
theorem c9_init_validation :
    (∀ connect : Except ConnFailure DBState,
      InitPostgres "" connect = (none, Except.error InitError.envNotSet, false)) ∧
    (∀ (dsn : String) (f : ConnFailure), dsn ≠ "" →
      InitPostgres dsn (Except.error f) =
        (none, Except.error (InitError.connectFailed f), true)) := by
  constructor
  · intro connect
    simp [InitPostgres]
  · intro dsn f h
    simp [InitPostgres, h]

theorem c9_init_validation_witness :
    InitPostgres "" (Except.ok stFresh) = (none, Except.error InitError.envNotSet, false) ∧
    InitPostgres "postgres://localhost/userdb" (Except.error ConnFailure.timeout) =
      (none, Except.error (InitError.connectFailed ConnFailure.timeout), true) :=
  ⟨c9_init_validation.1 (Except.ok stFresh),
   c9_init_validation.2 "postgres://localhost/userdb" ConnFailure.timeout (by decide)⟩

/-- C1 (documents the code bug): with both change-sets already recorded in
the tracker, force mode with confirmation granted executes nothing —
`runMigrationsUp` falls through to the ordinary `RunMigrations`, whose
Applied-Set check skips both files, so the state (in particular the empty
execution log) is returned unchanged, contradicting the documented
"re-executes every discovered change-set".  The denied branch does behave
as claimed: the run is cancelled with the tracker unchanged. -/
theorem c1_force_mode_failing_input :
    runMigrationsUp true "y" (some forceDB) wAll = (some forceDB, UpOutcome.success) ∧
    runMigrationsUp true "n" (some forceDB) wAll = (some forceDB, UpOutcome.cancelled) := by
  constructor <;> decide

/-- C7: with the tracker-creation and snapshot-query statements
succeeding, (i) an existing but empty migrations directory yields a run
with no error, zero executed change-sets and the tracker table still
created; (ii) if tracker-table creation fails the run stops with only that
error and the state untouched — the table is created before any change-set
is considered or applied; (iii) against a fresh database with no tracker
table, a run whose file and database operations succeed completes
successfully with the tracker table created. -/
theorem c7_bootstrap (w : World) (st : DBState)
    (hct : w.createTableOk = true) (hq : w.queryOk = true) :
    (w.dirListing = some [] →
      RunMigrations (some st) w =
        (some { st with trackerExists := true }, Except.ok ())) ∧
    (∀ w' : World, w'.createTableOk = false →
      RunMigrations (some st) w' = (some st, Except.error MigError.createTableFailed)) ∧
    ((∀ f, ∃ c, w.fileContents f = some c ∧ w.execOk c = true) →
      (∀ f, w.insertOk f = true) →
      ∀ files, w.dirListing = some files →
      ∃ st', RunMigrations (some st) w = (some st', Except.ok ()) ∧
        st'.trackerExists = true) := by
  refine ⟨?_, ?_, ?_⟩
  · intro hdl
    simp [RunMigrations, hct, hq, hdl, sqlFiles, sortStrings, execPending]
  · intro w' h
    simp [RunMigrations, h]
  · intro hf hi files hdl
    have hrm : RunMigrations (some st) w =
        (some (execPending w st.tracker (sqlFiles files) { st with trackerExists := true }).1,
         (execPending w st.tracker (sqlFiles files) { st with trackerExists := true }).2) := by
      simp [RunMigrations, hct, hq, hdl]
    refine ⟨(execPending w st.tracker (sqlFiles files) { st with trackerExists := true }).1,
      ?_, ?_⟩
    · rw [hrm, execPending_allOk w st.tracker hf hi (sqlFiles files)]
    · obtain ⟨dt, de, _, _, h3, _⟩ :=
        execPending_delta w st.tracker (sqlFiles files) { st with trackerExists := true }
      rw [h3]

theorem c7_bootstrap_witness :
    RunMigrations (some stFresh) { wAll with dirListing := some [] } =
      (some { stFresh with trackerExists := true }, Except.ok ()) ∧
    RunMigrations (some stFresh) { wAll with createTableOk := false } =
      (some stFresh, Except.error MigError.createTableFailed) ∧
    ∃ st', RunMigrations (some stFresh) wAll = (some st', Except.ok ()) ∧
      st'.trackerExists = true := by
  have h := c7_bootstrap { wAll with dirListing := some [] } stFresh (by decide) (by decide)
  have h' := c7_bootstrap wAll stFresh (by decide) (by decide)
  refine ⟨h.1 rfl, h.2.1 { wAll with createTableOk := false } (by decide), ?_⟩
  refine h'.2.2 ?_ ?_ [⟨"002_b.sql", false⟩, ⟨"001_a.sql", false⟩] rfl
  · intro f
    by_cases h1 : f = "001_a.sql"
    · exact ⟨"SQL A", by simp [wAll, h1], rfl⟩
    · by_cases h2 : f = "002_b.sql"
      · exact ⟨"SQL B", by simp [wAll, h1, h2], rfl⟩
      · exact ⟨"SQL OTHER", by simp [wAll, h1, h2], rfl⟩
  · intro f
    rfl

/-- C4: if a run of the Migration Executor succeeds, an immediately
following second run against the resulting database executes zero
change-sets: every change-set is found in the second run's Applied-Set
snapshot and skipped, and the state is returned unchanged with no error. -/
theorem c4_idempotent (w : World) (st st₁ : DBState)
    (h : RunMigrations (some st) w = (some st₁, Except.ok ())) :
    RunMigrations (some st₁) w = (some st₁, Except.ok ()) := by
  cases hct : w.createTableOk with
  | false => simp [RunMigrations, hct] at h
  | true =>
    cases hdl : w.dirListing with
    | none => simp [RunMigrations, hct, hdl] at h
    | some files =>
      cases hq : w.queryOk with
      | false => simp [RunMigrations, hct, hdl, hq] at h
      | true =>
        have h' : (execPending w st.tracker (sqlFiles files)
            { st with trackerExists := true }).1 = st₁ ∧
            (execPending w st.tracker (sqlFiles files)
              { st with trackerExists := true }).2 = Except.ok () := by
          simpa [RunMigrations, hct, hdl, hq] using h
        have hp : execPending w st.tracker (sqlFiles files)
            { st with trackerExists := true } = (st₁, Except.ok ()) := by
          rw [← h'.1, ← h'.2]
        obtain ⟨dt, de, h1, _, h3, _, _, _⟩ :=
          execPending_delta w st.tracker (sqlFiles files) { st with trackerExists := true }
        rw [hp] at h1 h3
        have hdone := execPending_ok_done w st.tracker (sqlFiles files) _ _ hp
        have hall : ∀ f ∈ sqlFiles files, f ∈ st₁.tracker := by
          intro f hf
          rcases hdone f hf with hmem | hmem
          · rw [h1]
            exact List.mem_append.mpr (Or.inl (by simpa using hmem))
          · exact hmem
        have hte : st₁.trackerExists = true := by simpa using h3
        have hskip := execPending_skip_all w st₁.tracker (sqlFiles files) st₁ hall
        simp [RunMigrations, hct, hdl, hq, DBState.set_trackerExists_self hte, hskip]

theorem c4_idempotent_witness :
    RunMigrations (some stApplied) wAll = (some stApplied, Except.ok ()) :=
  c4_idempotent wAll stFresh stApplied (by decide)

/-- C2: in every state reachable by a `RunMigrations` call, a change-set
recorded in the tracker during the run was executed during the run (no
record without execution), and a change-set executed during the run is
either recorded or the run aborted with exactly the recording-failure
error for that change-set — the acknowledged gap between execution and
recording is the only way to observe execution without a record. -/
theorem c2_record_atomicity (w : World) (st st' : DBState)
    (r : Except MigError Unit)
    (h : RunMigrations (some st) w = (some st', r)) (f : String) :
    (f ∈ st'.tracker → f ∈ st.tracker ∨ f ∈ st'.execLog) ∧
    (f ∈ st'.execLog → f ∈ st.execLog ∨ f ∈ st'.tracker ∨
      r = Except.error (MigError.recordFailed f)) := by
  cases hct : w.createTableOk with
  | false =>
    have h' : st = st' ∧ Except.error MigError.createTableFailed = r := by
      simpa [RunMigrations, hct] using h
    rw [← h'.1]
    exact ⟨fun hf => Or.inl hf, fun hf => Or.inl hf⟩
  | true =>
    cases hdl : w.dirListing with
    | none =>
      have h' : ({ st with trackerExists := true } : DBState) = st' ∧
          Except.error MigError.readDirFailed = r := by
        simpa [RunMigrations, hct, hdl] using h
      rw [← h'.1]
      exact ⟨fun hf => Or.inl hf, fun hf => Or.inl hf⟩
    | some files =>
      cases hq : w.queryOk with
      | false =>
        have h' : ({ st with trackerExists := true } : DBState) = st' ∧
            Except.error MigError.queryFailed = r := by
          simpa [RunMigrations, hct, hdl, hq] using h
        rw [← h'.1]
        exact ⟨fun hf => Or.inl hf, fun hf => Or.inl hf⟩
      | true =>
        have h' : (execPending w st.tracker (sqlFiles files)
            { st with trackerExists := true }).1 = st' ∧
            (execPending w st.tracker (sqlFiles files)
              { st with trackerExists := true }).2 = r := by
          simpa [RunMigrations, hct, hdl, hq] using h
        obtain ⟨dt, de, h1, h2, _, _, h5, _⟩ :=
          execPending_delta w st.tracker (sqlFiles files) { st with trackerExists := true }
        constructor
        · intro hf
          rw [← h'.1, h1] at hf
          rcases List.mem_append.mp (by simpa using hf) with hf | hf
          · exact Or.inl hf
          · right
            rw [← h'.1, h2]
            exact List.mem_append.mpr (Or.inr (h5.mem hf))
        · intro hf
          rw [← h'.1] at hf
          rcases execPending_exec_recorded w st.tracker (sqlFiles files)
              { st with trackerExists := true } f hf with hf' | hf' | hf'
          · exact Or.inl (by simpa using hf')
          · right; left; rw [← h'.1]; exact hf'
          · right; right; rw [← h'.2]; exact hf'

theorem c2_record_atomicity_witness :
    ("001_a.sql" ∈ (⟨true, [], ["001_a.sql"], []⟩ : DBState).tracker →
      "001_a.sql" ∈ stFresh.tracker ∨
        "001_a.sql" ∈ (⟨true, [], ["001_a.sql"], []⟩ : DBState).execLog) ∧
    ("001_a.sql" ∈ (⟨true, [], ["001_a.sql"], []⟩ : DBState).execLog →
      "001_a.sql" ∈ stFresh.execLog ∨
        "001_a.sql" ∈ (⟨true, [], ["001_a.sql"], []⟩ : DBState).tracker ∨
        (Except.error (MigError.recordFailed "001_a.sql") :
            Except MigError Unit) =
          Except.error (MigError.recordFailed "001_a.sql")) :=
  c2_record_atomicity wRecordFail stFresh ⟨true, [], ["001_a.sql"], []⟩
    (Except.error (MigError.recordFailed "001_a.sql")) (by decide) "001_a.sql"

/-- C5: when the sorted discovered change-sets are `[a, b, c]`, none yet
applied, `a` executes and records successfully but `b`'s statement text
fails to execute, the run aborts immediately with an error naming `b`:
only `a` is recorded and executed, and `c` is never attempted. -/
theorem c5_fail_fast (w : World) (st : DBState) (a b c ca cb : String)
    (files : List DirEntry)
    (hdl : w.dirListing = some files) (hsql : sqlFiles files = [a, b, c])
    (htr : st.tracker = []) (hct : w.createTableOk = true) (hq : w.queryOk = true)
    (hca : w.fileContents a = some ca) (hea : w.execOk ca = true)
    (hia : w.insertOk a = true)
    (hcb : w.fileContents b = some cb) (heb : w.execOk cb = false) :
    RunMigrations (some st) w =
      (some { st with trackerExists := true, tracker := [a],
                      execLog := st.execLog ++ [a] },
       Except.error (MigError.execFailed b)) := by
  simp [RunMigrations, hct, hq, hdl, hsql, execPending, htr, hca, hea, hia, hcb, heb]

theorem c5_fail_fast_witness :
    RunMigrations (some stFresh) wFailB =
      (some ⟨true, ["001_a.sql"], ["001_a.sql"], []⟩,
       Except.error (MigError.execFailed "002_b.sql")) :=
  c5_fail_fast wFailB stFresh "001_a.sql" "002_b.sql" "003_c.sql" "SQL A" "BROKEN SQL"
    [⟨"001_a.sql", false⟩, ⟨"002_b.sql", false⟩, ⟨"003_c.sql", false⟩]
    rfl (by decide) rfl rfl rfl (by decide) rfl rfl (by decide) (by decide)

/-- C3: the run of the Migration Executor is invariant under permutations
of the directory listing (the not-yet-applied files are executed in sorted
order no matter how the listing was ordered), and the resulting execution
log — the change-sets executed, in execution order, sequentially — is
strictly ascending in the lexicographic filename order. -/
lemma RunMigrations_perm_congr (w₁ w₂ : World) (st : DBState)
    (hfc : w₁.fileContents = w₂.fileContents) (hex : w₁.execOk = w₂.execOk)
    (hin : w₁.insertOk = w₂.insertOk) (hct : w₁.createTableOk = w₂.createTableOk)
    (hq : w₁.queryOk = w₂.queryOk)
    (l₁ l₂ : List DirEntry) (h₁ : w₁.dirListing = some l₁) (h₂ : w₂.dirListing = some l₂)
    (hperm : l₁.Perm l₂) :
    RunMigrations (some st) w₁ = RunMigrations (some st) w₂ := by
  cases hc : w₁.createTableOk with
  | false => simp [RunMigrations, hc, hct.symm.trans hc]
  | true =>
    cases hqq : w₁.queryOk with
    | false => simp [RunMigrations, hc, hct.symm.trans hc, h₁, h₂, hqq, hq.symm.trans hqq]
    | true =>
      simp only [RunMigrations, hc, hct.symm.trans hc, h₁, h₂, hqq, hq.symm.trans hqq,
        if_true]
      rw [sqlFiles_eq_of_perm hperm,
        @execPending_congr w₁ w₂ hfc hex hin st.tracker (sqlFiles l₂)
          { st with trackerExists := true }]

theorem c3_ordering (w : World) (st : DBState) (l₁ l₂ : List DirEntry)
    (hperm : l₁.Perm l₂) (hnd : (l₁.map DirEntry.name).Nodup)
    (hlog : st.execLog = []) (st' : DBState) (r : Except MigError Unit)
    (h : RunMigrations (some st) { w with dirListing := some l₁ } = (some st', r)) :
    RunMigrations (some st) { w with dirListing := some l₁ } =
      RunMigrations (some st) { w with dirListing := some l₂ } ∧
    st'.execLog.Pairwise (fun x y => strLe x y = true ∧ x ≠ y) := by
  constructor
  · exact RunMigrations_perm_congr { w with dirListing := some l₁ }
      { w with dirListing := some l₂ } st rfl rfl rfl rfl rfl l₁ l₂ rfl rfl hperm
  · cases hct : w.createTableOk with
    | false =>
      have h' : st = st' ∧ Except.error MigError.createTableFailed = r := by
        simpa [RunMigrations, hct] using h
      rw [← h'.1, hlog]
      exact List.Pairwise.nil
    | true =>
      cases hq : w.queryOk with
      | false =>
        have h' : ({ st with trackerExists := true } : DBState) = st' ∧
            Except.error MigError.queryFailed = r := by
          simpa [RunMigrations, hct, hq] using h
        rw [← h'.1]
        simp only [hlog]
        exact List.Pairwise.nil
      | true =>
        have h' : (execPending { w with dirListing := some l₁ } st.tracker (sqlFiles l₁)
            { st with trackerExists := true }).1 = st' ∧
            (execPending { w with dirListing := some l₁ } st.tracker (sqlFiles l₁)
              { st with trackerExists := true }).2 = r := by
          simpa [RunMigrations, hct, hq] using h
        obtain ⟨dt, de, _, h2, _, _, _, h6⟩ :=
          execPending_delta { w with dirListing := some l₁ } st.tracker (sqlFiles l₁)
            { st with trackerExists := true }
        rw [h'.1] at h2
        rw [h2]
        simp only [hlog]
        simpa using List.Pairwise.sublist h6 (sqlFiles_strict_sorted hnd)

/-- The two demo listings are each other's permutations (out-of-order and
in-order). -/
def demoL1 : List DirEntry := [⟨"002_b.sql", false⟩, ⟨"001_a.sql", false⟩]

/-- The in-order counterpart of `demoL1`. -/
def demoL2 : List DirEntry := [⟨"001_a.sql", false⟩, ⟨"002_b.sql", false⟩]

theorem c3_ordering_witness :
    (RunMigrations (some stFresh) { wAll with dirListing := some demoL1 } =
      RunMigrations (some stFresh) { wAll with dirListing := some demoL2 }) ∧
    stApplied.execLog.Pairwise (fun x y => strLe x y = true ∧ x ≠ y) :=
  c3_ordering wAll stFresh demoL1 demoL2 (by decide) (by decide) rfl stApplied
    (Except.ok ()) (by decide)

/-- C6: the two loops have distinct error-propagation policies: a seed
failure aborts the remaining seed files and surfaces an error, but the
startup sequence of `cmd/main.go` records it only as a warning and keeps
starting, while a migration failure terminates the startup fatally. -/
theorem c6_error_policies :
    (∀ (dsn : String) (st : DBState) (am : String) (w : World) (sw : SeedWorld)
        (e : SeedError) (db2 : Option DBState),
      dsn ≠ "" → autoMigrateEnabled am = false →
      SeedDatabase (some st) sw = (db2, Except.error e) →
      mainStartup dsn (Except.ok st) am w sw = StartupResult.started db2 (some e)) ∧
    (∀ (dsn : String) (st : DBState) (am : String) (w : World) (sw : SeedWorld)
        (e : MigError),
      dsn ≠ "" → autoMigrateEnabled am = true →
      (RunMigrations (some st) w).2 = Except.error e →
      mainStartup dsn (Except.ok st) am w sw =
        StartupResult.fatal (FatalReason.migrationFailed e)) ∧
    (∀ (sw : SeedWorld) (a : String) (rest : List String) (st : DBState) (c : String),
      sw.fileContents a = some c → sw.execOk c = false →
      seedLoop sw (a :: rest) st = (st, Except.error (SeedError.execFailed a))) := by
  refine ⟨?_, ?_, ?_⟩
  · intro dsn st am w sw e db2 hdsn ham hseed
    simp [mainStartup, InitPostgres, hdsn, ham, hseed]
  · intro dsn st am w sw e hdsn ham hmig
    rcases hrm : RunMigrations (some st) w with ⟨db1, r⟩
    rw [hrm] at hmig
    simp only [] at hmig
    subst hmig
    simp [mainStartup, InitPostgres, hdsn, ham, hrm]
  · intro sw a rest st c hc hex
    simp [seedLoop, hc, hex]

theorem c6_error_policies_witness :
    mainStartup "postgres://localhost/userdb" (Except.ok stFresh) "false" wAll swFail =
      StartupResult.started (some stFresh) (some (SeedError.execFailed "users.sql")) ∧
    mainStartup "postgres://localhost/userdb" (Except.ok stFresh) "true" wFailB swFail =
      StartupResult.fatal (FatalReason.migrationFailed (MigError.execFailed "002_b.sql")) ∧
    seedLoop swFail ["users.sql"] stFresh =
      (stFresh, Except.error (SeedError.execFailed "users.sql")) :=
  ⟨c6_error_policies.1 "postgres://localhost/userdb" stFresh "false" wAll swFail
      (SeedError.execFailed "users.sql") (some stFresh) (by decide) (by decide) (by decide),
   c6_error_policies.2.1 "postgres://localhost/userdb" stFresh "true" wFailB swFail
      (MigError.execFailed "002_b.sql") (by decide) (by decide) (by decide),
   c6_error_policies.2.2 swFail "users.sql" [] stFresh "INSERT USERS" (by decide) (by decide)⟩

end UserApi
